import Mathlib

/-
Verification of the scoring-and-aggregation engine of the automlbenchmark
repository (module `amlb/results.py`): the `Scoreboard` ledger (schema drift,
backup policy, append/dedup, canonical column ordering), the `Result` metric
evaluation family (`Result.evaluate`, `NoResult`, `ErrorResult`,
`ClassificationResult`, `RegressionResult`, `TimeSeriesResult`), the
per-class-error statistics, and `TaskResult.score_from_predictions_file`
filename parsing.

Floating-point values flowing through the metric layer are modelled by `FVal`
(a rational number, `inf`, `-inf`, or `nan`); table cells by `Option ℚ` with
`none` standing for a blank/NaN cell; real-valued regression metrics by `ℝ`.
Exceptions are modelled by `Except`/`Option` results.
-/

/-- Model of a Python/numpy floating value as used by the metric layer:
a finite rational, positive or negative infinity, or NaN. -/
inductive FVal where
  | fin (q : ℚ)
  | inf
  | ninf
  | nan
deriving DecidableEq, Repr

/-- `np.isfinite`: true exactly on finite values. -/
def FVal.isFinite : FVal → Bool
  | .fin _ => true
  | _ => false

/-- Python `>` on floats: any comparison involving NaN is false. -/
def FVal.gt : FVal → FVal → Bool
  | .nan, _ => false
  | _, .nan => false
  | .fin p, .fin q => decide (q < p)
  | .fin _, .inf => false
  | .fin _, .ninf => true
  | .inf, .inf => false
  | .inf, _ => true
  | .ninf, _ => false

/-- Python `+` on floats (NaN propagates, `inf + -inf = nan`). -/
def FVal.add : FVal → FVal → FVal
  | .nan, _ => .nan
  | _, .nan => .nan
  | .inf, .ninf => .nan
  | .ninf, .inf => .nan
  | .inf, _ => .inf
  | _, .inf => .inf
  | .ninf, _ => .ninf
  | _, .ninf => .ninf
  | .fin p, .fin q => .fin (p + q)

/-- Division of a float by a natural number; division by zero gives NaN
(the `0/0` case arising from numpy integer division). -/
def FVal.divNat : FVal → ℕ → FVal
  | _, 0 => .nan
  | .fin q, n => .fin (q / (n : ℚ))
  | .inf, _ => .inf
  | .ninf, _ => .ninf
  | .nan, _ => .nan

/-- Sum of a list of floats, as Python `sum` starting from `0`. -/
def fvalSum (l : List FVal) : FVal := l.foldl FVal.add (.fin 0)

/-- `statistics.mean`: sum divided by length.  Python raises on an empty
list; the model returns NaN there (unreachable for the results at hand). -/
def fvalMean (l : List FVal) : FVal := (fvalSum l).divNat l.length

/-- Python builtin `max` over a list: keep the current value unless the next
element compares strictly greater (so NaN elements after the head are
skipped, while a NaN head survives).  Python raises on an empty list; the
model returns NaN there. -/
def pyMax : List FVal → FVal
  | [] => .nan
  | h :: t => t.foldl (fun acc x => if FVal.gt x acc then x else acc) h

section FilenameParsing

/-- Character class `[\w\-]` of the prediction-file regex (ASCII reading of
Python `\w`, i.e. letters, digits and underscore, plus the dash). -/
def isWordChar (c : Char) : Bool := c.isAlphanum || c = '_' || c = '-'

/-- First successful application of `f` along a list (the backtracking order
of a regex quantifier). -/
def firstSome {α β : Type} (f : α → Option β) : List α → Option β
  | [] => none
  | a :: t =>
    match f a with
    | some b => some b
    | none => firstSome f t

/-- Match the tail `(?P<fold>\d+)\.csv` of the prediction-file pattern:
the characters must be one or more digits followed by exactly ".csv". -/
def matchFoldPart (cs : List Char) : Option String :=
  let n := cs.length
  let ds := cs.take (n - 4)
  if cs.drop (n - 4) = ['.', 'c', 's', 'v'] ∧ ds ≠ [] ∧ ds.all Char.isDigit then
    some (String.mk ds)
  else none

/-- Match `(?P<task>[\w\-]+){sep}(?P<fold>\d+)\.csv` with the greedy task
group: the longest word-character prefix followed by the separator and a
matching fold part wins. -/
def matchTaskFold (cs : List Char) : Option (String × String) :=
  firstSome
    (fun k =>
      let tk := cs.take k
      if tk ≠ [] ∧ tk.all isWordChar ∧ cs.get? k = some '_' then
        (matchFoldPart (cs.drop (k + 1))).map (fun fold => (String.mk tk, fold))
      else none)
    ((List.range cs.length).reverse)

/-- Full match of the prediction-file basename pattern
`(?P<framework>[\w\-]+?){sep}(?P<task>[\w\-]+){sep}(?P<fold>\d+)\.csv`
(`TaskResult.score_from_predictions_file`, token separator "_").  The
framework group is lazy, so the shortest framework prefix that lets the
remainder match wins; within it the task group is greedy. -/
def matchFileName (cs : List Char) : Option (String × String × String) :=
  firstSome
    (fun fk =>
      let fw := cs.take fk
      if fw ≠ [] ∧ fw.all isWordChar ∧ cs.get? fk = some '_' then
        (matchTaskFold (cs.drop (fk + 1))).map (fun tf => (String.mk fw, tf.1, tf.2))
      else none)
    (List.range cs.length)

/-- Python `int(...)` applied to an all-digit string (the fold group of the
pattern only ever contains decimal digits). -/
def pyIntOfDigits (s : String) : ℕ :=
  s.toList.foldl (fun n c => 10 * n + (c.toNat - 48)) 0

/-- Parse of a predictions-file basename into
(framework, task, fold), with the fold group converted by `int(...)`. -/
def parsedScoreTriple (basename : String) : Option (String × String × ℕ) :=
  (matchFileName basename.toList).map (fun g => (g.1, g.2.1, pyIntOfDigits g.2.2))

end FilenameParsing

section ScoreboardModel

/-- A table cell; `none` stands for a blank/NaN cell. -/
abbrev Cell := Option ℚ

/-- A pandas data frame, modelled as an ordered list of column names and a
list of rows (each row positionally aligned with the columns). -/
structure DFm where
  cols : List String
  rows : List (List Cell)
deriving DecidableEq, Repr

/-- Index of the first occurrence of a column name in a header. -/
def colIndex : List String → String → Option ℕ
  | [], _ => none
  | a :: t, c => if a = c then some 0 else (colIndex t c).map (· + 1)

/-- Value of a row at a named column (NaN when the column is absent),
i.e. label-based alignment as pandas performs it. -/
def lookupCell (cols : List String) (row : List Cell) (c : String) : Cell :=
  match colIndex cols c with
  | some j => row.getD j none
  | none => none

/-- Re-align a row from one header to another by column name; columns of the
new header absent from the old one become NaN. -/
def reindexRow (oldCols newCols : List String) (row : List Cell) : List Cell :=
  newCols.map (lookupCell oldCols row)

/-- Union of two headers as `DataFrame.append` builds it (sort=False):
the calling frame's columns first, then the other frame's new columns. -/
def combinedCols (a b : List String) : List String :=
  a ++ b.filter (fun c => !a.contains c)

/-- `a.append(b)` on data frames: concatenate the rows under the combined
schema.  The calling frame's header is a prefix of the combined one, so its
rows are kept as they are and padded with NaN cells for the newly introduced
columns; the other frame's rows are aligned by column name. -/
def dfAppend (a b : DFm) : DFm :=
  { cols := combinedCols a.cols b.cols,
    rows := a.rows.map
              (fun r => r ++ List.replicate (b.cols.filter (fun c => !a.cols.contains c)).length none)
            ++ b.rows.map (reindexRow b.cols (combinedCols a.cols b.cols)) }

/-- Helper for `dropDup`: keep the rows not equal to any row seen so far. -/
def dropDupAux {α : Type} [DecidableEq α] : List α → List α → List α
  | _, [] => []
  | seen, a :: t =>
    if a ∈ seen then dropDupAux seen t else a :: dropDupAux (a :: seen) t

/-- `DataFrame.drop_duplicates()`: keep the first occurrence of every row. -/
def dropDup {α : Type} [DecidableEq α] (l : List α) : List α := dropDupAux [] l

/-- Outcome of `Scoreboard.save_df`: whether schema drift (a "new format")
was detected, whether the old file was backed up (the backup call precedes
the write in the source), whether the file is (re)written with a header, and
the table written. -/
structure SaveOutcome where
  drift : Bool
  backedUp : Bool
  newFile : Bool
  written : DFm
deriving DecidableEq, Repr

/-- `Scoreboard.save_df(data_frame, path, append)`.  `existing` is the file
currently at `path` (`none` when absent); its `cols` are the header row read
by `read_csv(path, nrows=1)`.  Drift compares that header with the new
table's column list; on drift, or on a non-append write to an existing file,
the old file is backed up; on drift with append the old table is read and
the new one appended to it. -/
def saveDf (existing : Option DFm) (dataFrame : DFm) (app : Bool) : SaveOutcome :=
  let exists_ := existing.isSome
  let newFormat :=
    match existing with
    | some old => decide ¬(old.cols = dataFrame.cols)
    | none => false
  let df := if newFormat && app then dfAppend (existing.getD ⟨[], []⟩) dataFrame
            else dataFrame
  { drift := newFormat,
    backedUp := newFormat || (exists_ && !app),
    newFile := !exists_ || !app || newFormat,
    written := df }

/-- The fixed core columns of a scoreboard entry, in canonical order
(`Scoreboard.as_data_frame`, with the empty index). -/
def fixedCols : List String :=
  ["id", "task", "framework", "constraint", "fold", "type", "result", "metric",
   "mode", "version", "params", "app_version", "utc", "duration",
   "training_duration", "predict_duration", "models_count", "seed", "info"]

/-- Non-underscore attributes of the `ClassificationResult` class
(`dir(ClassificationResult)` filtered by `not col.startswith('_')`):
its metric methods, the inherited `evaluate`, and the class variable
`multi_class_average`. -/
def classificationDirNames : List String :=
  ["acc", "auc", "auc_ovo", "auc_ovr", "balacc", "evaluate", "f05", "f1",
   "f2", "logloss", "max_pce", "mean_pce", "multi_class_average", "pr_auc"]

/-- Non-underscore attributes of the `RegressionResult` class. -/
def regressionDirNames : List String :=
  ["evaluate", "mae", "mse", "msle", "r2", "rmse", "rmsle"]

/-- Column recognized as a metric column by `as_data_frame`. -/
def isMetricCol (c : String) : Bool :=
  classificationDirNames.contains c || regressionDirNames.contains c

/-- Python `list.sort()` on strings: lexicographic insertion sort. -/
def sortStr (l : List String) : List String :=
  l.insertionSort (fun a b => a ≤ b)

/-- The canonical column ordering computed by `Scoreboard.as_data_frame`:
fixed columns first (all of them, reindexing adds the missing ones), then
the recognized metric columns present in the table sorted alphabetically,
then the remaining dynamic columns sorted alphabetically. -/
def orderedCols (cols : List String) : List String :=
  fixedCols
    ++ sortStr (cols.filter (fun c => isMetricCol c))
    ++ sortStr (cols.filter (fun c => !fixedCols.contains c && !isMetricCol c))

/-- `Scoreboard.as_data_frame`: an empty frame is returned unchanged (to
avoid dtype conversions); otherwise the frame is reindexed to the canonical
column ordering. -/
def asDataFrame (df : DFm) : DFm :=
  if df.rows.isEmpty || df.cols.isEmpty then df
  else { cols := orderedCols df.cols,
         rows := df.rows.map (reindexRow df.cols (orderedCols df.cols)) }

/-- In-memory state of a `Scoreboard` (its `scores` table). -/
structure ScoreboardM where
  scores : DFm
deriving DecidableEq, Repr

/-- `Scoreboard.load_df`: read the backing file if present, else an empty
frame. -/
def loadDf (file : Option DFm) : DFm := file.getD ⟨[], []⟩

/-- `Scoreboard.append(board, no_duplicates)`: concatenate the two boards'
canonical tables, optionally dropping duplicate rows, and build a NEW
scoreboard from the merged table.  The pair returned is
(result of the call, state of the receiver after the call): the receiver is
not assigned to, so its post-state is itself. -/
def ScoreboardM.appendBoard (b other : ScoreboardM) (noDuplicates : Bool) :
    ScoreboardM × ScoreboardM :=
  let t := dfAppend (asDataFrame b.scores) (asDataFrame other.scores)
  let merged := if noDuplicates then { cols := t.cols, rows := dropDup t.rows } else t
  (⟨merged⟩, b)

/-- `Scoreboard.load`: re-read the backing file into `self.scores` and
return `self`; the pair is (returned board, receiver post-state). -/
def ScoreboardM.loadOp (_b : ScoreboardM) (file : Option DFm) :
    ScoreboardM × ScoreboardM :=
  let nb : ScoreboardM := ⟨loadDf file⟩
  (nb, nb)

/-- `Scoreboard.save(append)`: write the table through `save_df` and return
`self`; no assignment to `self.scores` happens.  The printable projection's
numeric formatting is outside the claims and not modelled; the canonical
table is written.  The pair is ((returned board, file outcome), receiver
post-state). -/
def ScoreboardM.saveOp (b : ScoreboardM) (existing : Option DFm) (app : Bool) :
    (ScoreboardM × SaveOutcome) × ScoreboardM :=
  ((b, saveDf existing (asDataFrame b.scores) app), b)

/-- `Scoreboard.as_data_frame` as an operation on the board: it only reads
the state.  The pair is (result, receiver post-state). -/
def ScoreboardM.asDataFrameOp (b : ScoreboardM) : DFm × ScoreboardM :=
  (asDataFrame b.scores, b)

end ScoreboardModel

section ResultModel

/-- The problem-type tag of a result (`amlb.data.DatasetType`). -/
inductive DatasetType where
  | binary
  | multiclass
  | regression
  | timeseries
deriving DecidableEq, Repr

/-- `DatasetType.name`, as used in the unsupported-metric message. -/
def DatasetType.name : DatasetType → String
  | .binary => "binary"
  | .multiclass => "multiclass"
  | .regression => "regression"
  | .timeseries => "timeseries"

/-- The record returned by `Result.evaluate`: the metric name, the computed
value, the registered direction flag (`none` when unknown), and an optional
diagnostic message. -/
structure EvalRes where
  metric : String
  value : FVal
  higher_is_better : Option Bool
  message : Option String
deriving DecidableEq, Repr

/-- A result's metric methods, looked up by name as `getattr` does: for a
supported metric name, the registered direction flag together with the
outcome of calling the method (`Except.error` when the call raises). -/
abbrev MethodTable := String → Option (Bool × Except String FVal)

/-- `Result.evaluate(metric)`: dispatch on the metric name; a raising
computation is captured into a NaN value with a message embedding the metric
name and the failure text; an unsupported name gives NaN, an unknown
direction and an advisory message.  The function is total: no exception
propagates.  (`hasattr` dispatch is modelled by the metric-method table;
invoking a non-metric attribute also fails and is captured with the same
observable shape: NaN value plus `Scoring ...` message.) -/
def resultEvaluate (methods : MethodTable) (pbType : String) (m : String) : EvalRes :=
  match methods m with
  | some (hib, .ok v) =>
    { metric := m, value := v, higher_is_better := some hib, message := none }
  | some (hib, .error e) =>
    { metric := m, value := .nan, higher_is_better := some hib,
      message := some ("Scoring " ++ m ++ ": " ++ e) }
  | none =>
    { metric := m, value := .nan, higher_is_better := none,
      message := some ("Unsupported metric `" ++ m ++ "` for " ++ pbType ++ " problems") }

/-- The process-wide metric registry `_supported_metrics_`, in registration
order, with each metric's `higher_is_better` flag. -/
def supportedMetrics : List (String × Bool) :=
  [("acc", true), ("auc", true), ("auc_ovo", true), ("auc_ovr", true),
   ("balacc", true), ("f05", true), ("f1", true), ("f2", true),
   ("logloss", false), ("max_pce", false), ("mean_pce", false),
   ("pr_auc", true),
   ("mae", false), ("mse", false), ("msle", false), ("rmse", false),
   ("rmsle", false), ("r2", true),
   ("smape", false), ("mape", false), ("wape", false), ("mase", false),
   ("mql", false), ("wql", false), ("sql", false)]

/-- `NoResult.evaluate(metric)`: the value is always NaN; the direction is
resolved from the registry when the name is recognized, and otherwise an
"unsupported metric" message is attached.  (The source's `metric is None`
branch concerns a non-string sentinel and is outside the string-metric
claims.) -/
def noResultEvaluate (m : String) : EvalRes :=
  match supportedMetrics.lookup m with
  | some hib => { metric := m, value := .nan, higher_is_better := some hib, message := none }
  | none => { metric := m, value := .nan, higher_is_better := none,
              message := some ("Unsupported metric `" ++ m ++ "`") }

/-- `ErrorResult` extends `NoResult` and inherits its `evaluate`. -/
def errorResultEvaluate (m : String) : EvalRes := noResultEvaluate m

/-- `ErrorResult.__init__`: the diagnostic message, truncated to the
configured maximum length with an ellipsis marker. -/
def errorResultInfo (msg : String) (maxLen : ℕ) : String :=
  if msg.length ≤ maxLen then msg else (msg.take (maxLen - 1)).push '…'

deriving instance DecidableEq for Except

/-- A constructed `ClassificationResult`: the class labels derived from the
probability columns, the truth and prediction label sequences, and the
outcomes of the external scoring library calls (sklearn via
`amlb.datautils`, outside this repository) for the metrics it delegates. -/
structure ClassificationResultM where
  classes : List String
  truth : List String
  predictions : List String
  extAcc : Except String FVal
  extBalacc : Except String FVal
  extLogloss : Except String FVal
  extRocAucBinary : Except String FVal
  extRocAucOvo : Except String FVal
  extRocAucOvr : Except String FVal
  extAvgPrecision : Except String FVal
  extF05 : Except String FVal
  extF1 : Except String FVal
  extF2 : Except String FVal
deriving DecidableEq, Repr

/-- `type` of a classification result: binary iff exactly two classes, else
multiclass. -/
def ClassificationResultM.dtype (c : ClassificationResultM) : DatasetType :=
  if c.classes.length = 2 then .binary else .multiclass

/-- Message of the `ResultError` raised by `auc` on multiclass results. -/
def aucMessage : String :=
  "For multiclass problems, use `auc_ovr` or `auc_ovo` metrics instead of `auc`."

/-- Message of the `ResultError` raised by `pr_auc` on non-binary results. -/
def prAucMessage : String := "PR AUC metric is only available for binary problems."

/-- `ClassificationResult.auc`: raises a type-mismatch `ResultError` on
multiclass results, else delegates to `roc_auc_score` on the positive-class
probability column. -/
def ClassificationResultM.auc (c : ClassificationResultM) : Except String FVal :=
  if c.dtype = .multiclass then .error aucMessage else c.extRocAucBinary

/-- `ClassificationResult.pr_auc`: raises a `ResultError` on non-binary
results, else delegates to `average_precision_score`. -/
def ClassificationResultM.pr_auc (c : ClassificationResultM) : Except String FVal :=
  if ¬(c.dtype = .binary) then .error prAucMessage else c.extAvgPrecision

/-- Modelled from the spec: `confusion_matrix` is imported from
`amlb.datautils` (not among the sources); the spec's per-class error formula
identifies it as the standard confusion matrix, whose entry at row `i`,
column `j` counts the rows whose truth is label `i` and whose prediction is
label `j`. -/
def confusionMatrix (labels truth preds : List String) : List (List ℕ) :=
  labels.map (fun la =>
    labels.map (fun lb =>
      (truth.zip preds).countP (fun x => decide (x.1 = la) && decide (x.2 = lb))))

/-- `ClassificationResult._cm`: the confusion matrix over the class labels. -/
def ClassificationResultM.cm (c : ClassificationResultM) : List (List ℕ) :=
  confusionMatrix c.classes c.truth c.predictions

/-- `ClassificationResult._per_class_errors`: for each row of the confusion
matrix, `(s - d) / s` with `s` the row sum and `d` the diagonal entry;
numpy integer division turns the zero-support case `0/0` into NaN. -/
def ClassificationResultM.perClassErrors (c : ClassificationResultM) : List FVal :=
  (List.range c.classes.length).map (fun i =>
    let r := c.cm.getD i []
    let s := r.sum
    let d := r.getD i 0
    if s = 0 then FVal.nan else .fin (((s : ℚ) - (d : ℚ)) / (s : ℚ)))

/-- `ClassificationResult.max_pce`: Python `max` of the per-class errors. -/
def ClassificationResultM.max_pce (c : ClassificationResultM) : FVal :=
  pyMax c.perClassErrors

/-- `ClassificationResult.mean_pce`: `statistics.mean` of the per-class
errors. -/
def ClassificationResultM.mean_pce (c : ClassificationResultM) : FVal :=
  fvalMean c.perClassErrors

/-- The metric-method table of a classification result (the `@metric`
methods of `ClassificationResult`): the direction flag, and the outcome of
each method (external library calls are its `ext*` fields; `auc`, `pr_auc`
and the per-class-error statistics are computed in the source). -/
def classificationMethods (c : ClassificationResultM) : MethodTable := fun m =>
  match m with
  | "acc" => some (true, c.extAcc)
  | "auc" => some (true, c.auc)
  | "auc_ovo" => some (true, c.extRocAucOvo)
  | "auc_ovr" => some (true, c.extRocAucOvr)
  | "balacc" => some (true, c.extBalacc)
  | "f05" => some (true, c.extF05)
  | "f1" => some (true, c.extF1)
  | "f2" => some (true, c.extF2)
  | "logloss" => some (false, c.extLogloss)
  | "max_pce" => some (false, .ok c.max_pce)
  | "mean_pce" => some (false, .ok c.mean_pce)
  | "pr_auc" => some (true, c.pr_auc)
  | _ => none

end ResultModel

section RegressionModel

/-- A constructed `RegressionResult`: truth and predictions coerced to
floating point, modelled over the reals. -/
structure RegressionResultM where
  truth : List ℝ
  predictions : List ℝ

/-- Modelled from the spec: `mean_squared_error` is imported from
`amlb.datautils` (not among the sources); the spec identifies `mse` as the
standard mean squared error. -/
noncomputable def RegressionResultM.mse (r : RegressionResultM) : ℝ :=
  (((r.truth.zip r.predictions).map (fun p => (p.1 - p.2) ^ 2)).sum)
    / ((r.truth.zip r.predictions).length : ℝ)

/-- Modelled from the spec: `mean_squared_log_error` is imported from
`amlb.datautils` (not among the sources); the spec identifies `msle` as the
mean of the squared differences of `log(1 + x)` (undefined values for
negative inputs are left to the underlying log computation, as the spec
states). -/
noncomputable def RegressionResultM.msle (r : RegressionResultM) : ℝ :=
  (((r.truth.zip r.predictions).map
      (fun p => (Real.log (1 + p.1) - Real.log (1 + p.2)) ^ 2)).sum)
    / ((r.truth.zip r.predictions).length : ℝ)

/-- `RegressionResult.rmse`: `math.sqrt(self.mse())`. -/
noncomputable def RegressionResultM.rmse (r : RegressionResultM) : ℝ :=
  Real.sqrt r.mse

/-- `RegressionResult.rmsle`: `math.sqrt(self.msle())`. -/
noncomputable def RegressionResultM.rmsle (r : RegressionResultM) : ℝ :=
  Real.sqrt r.msle

end RegressionModel

section TimeSeriesModel

/-- The raw prediction frame handed to `TimeSeriesResult`: named columns of
floating values. -/
structure TSFrame where
  cols : List (String × List FVal)
deriving DecidableEq, Repr

/-- The column names of the frame. -/
def tsColNames (f : TSFrame) : List String := f.cols.map Prod.fst

/-- Values of a named column (empty when absent; every access in the
constructor happens after the mandatory-column check). -/
def tsCol (f : TSFrame) (name : String) : List FVal :=
  (List.lookup name f.cols).getD []

/-- The four mandatory time-series columns. -/
def tsRequired : List String :=
  ["truth", "predictions", "repeated_item_id", "repeated_abs_seasonal_error"]

/-- The mandatory columns missing from the frame. -/
def tsMissing (f : TSFrame) : List String :=
  tsRequired.filter (fun c => !(tsColNames f).contains c)

/-- Python `column.startswith('0.')` on a column name. -/
def startsWithZeroDot (c : String) : Bool :=
  match c.toList with
  | '0' :: '.' :: _ => true
  | _ => false

/-- The quantile-forecast columns: names starting with "0.". -/
def tsQuantCols (f : TSFrame) : List String :=
  (tsColNames f).filter (fun c => startsWithZeroDot c)

/-- Columns that are neither mandatory nor quantile-named. -/
def tsUnrecognized (f : TSFrame) : List String :=
  (tsColNames f).filter
    (fun c => !tsRequired.contains c && !(tsQuantCols f).contains c)

/-- Whether any point prediction or quantile forecast is NaN or Inf. -/
def tsNonFinite (f : TSFrame) : Bool :=
  (tsCol f "predictions").any (fun v => !v.isFinite)
    || ((tsQuantCols f).map (tsCol f)).any (fun col => col.any (fun v => !v.isFinite))

/-- A total order on `FVal` used to model numpy's sort of the item-id
values (`np.unique`): -inf, then finite values by magnitude, then inf, then
NaN last. -/
def fvalLeB : FVal → FVal → Bool
  | .ninf, _ => true
  | _, .ninf => false
  | .fin p, .fin q => decide (p ≤ q)
  | .fin _, _ => true
  | .inf, .inf => true
  | .inf, .nan => true
  | .inf, _ => false
  | .nan, .nan => true
  | .nan, _ => false

/-- `np.unique` values: the distinct item ids in sorted order. -/
def fvalSortedUnique (l : List FVal) : List FVal :=
  dropDup (l.insertionSort (fun a b => fvalLeB a b = true))

/-- `np.unique(..., return_counts=True)` counts: for each distinct item id
in sorted order, the number of rows carrying it — i.e. the per-item group
lengths, one entry per item, possibly with repeated values. -/
def tsUniqueCounts (f : TSFrame) : List ℕ :=
  (fvalSortedUnique (tsCol f "repeated_item_id")).map
    (fun v => (tsCol f "repeated_item_id").count v)

/-- The validation errors `TimeSeriesResult.__init__` can raise, with the
data each message carries. -/
inductive TSError where
  | missingColumns (missing : List String)
  | unrecognizedColumns (cols : List String)
  | nonFinite
  | differentLengths (counts : List ℕ)
deriving DecidableEq, Repr

/-- The validated payload of a successfully constructed `TimeSeriesResult`. -/
structure TimeSeriesData where
  truth : List FVal
  predictions : List FVal
  itemIds : List FVal
  absSeasonalError : List FVal
  quantilePredictions : List (List FVal)
  quantileCols : List String
deriving DecidableEq, Repr

/-- `TimeSeriesResult.__init__`: checks, in source order, that the four
mandatory columns are present, that no column outside the mandatory and
quantile-named sets appears, that no point prediction or quantile forecast
is NaN/Inf, and that all item-id groups have the same length — each failure
raising before any metric can be computed (metrics are only defined on the
validated payload).  The length error carries `unique_item_ids_counts`, the
per-item group lengths. -/
def mkTimeSeriesResult (f : TSFrame) : Except TSError TimeSeriesData :=
  if ¬(tsMissing f = []) then .error (.missingColumns (tsMissing f))
  else if ¬(tsUnrecognized f = []) then .error (.unrecognizedColumns (tsUnrecognized f))
  else if tsNonFinite f then .error .nonFinite
  else if ¬((dropDup (tsUniqueCounts f)).length = 1) then
    .error (.differentLengths (tsUniqueCounts f))
  else
    .ok { truth := tsCol f "truth",
          predictions := tsCol f "predictions",
          itemIds := tsCol f "repeated_item_id",
          absSeasonalError := tsCol f "repeated_abs_seasonal_error",
          quantilePredictions := (tsQuantCols f).map (tsCol f),
          quantileCols := tsQuantCols f }

end TimeSeriesModel

/-- Python `<=` on floats: any comparison involving NaN is false. -/
def FVal.le : FVal → FVal → Bool
  | .nan, _ => false
  | _, .nan => false
  | .fin p, .fin q => decide (p ≤ q)
  | .ninf, _ => true
  | .inf, .inf => true
  | .inf, _ => false
  | .fin _, .inf => true
  | .fin _, .ninf => false

section Theorems

/-- C6 counterexample: `score_from_predictions_file` applied to the basename
"autosklearn_task_adult_0.csv" does NOT parse it into framework
"autosklearn", task "adult", fold 0: since `\w` matches underscores and the
task group is greedy (the framework group lazy), the parsed task is
"task_adult", not "adult". -/
theorem score_filename_parse_counterexample :
    ¬(parsedScoreTriple "autosklearn_task_adult_0.csv"
        = some ("autosklearn", "adult", 0)) := by
  decide

/-- C6 (amended): `score_from_predictions_file` applied to the basename
"autosklearn_task_adult_0.csv" (token separator "_") parses it into
framework "autosklearn", task "task_adult", fold 0. -/
theorem score_filename_parse :
    parsedScoreTriple "autosklearn_task_adult_0.csv"
      = some ("autosklearn", "task_adult", 0) := by
  decide

/-- C9: for every regression result, `rmse()` equals `sqrt(mse())` and
`rmsle()` equals `sqrt(msle())` exactly (the model is over the reals, where
the relation is exact; both squared roots recover the mean errors since
those are nonnegative means of squares). -/
theorem regression_rmse_sqrt_relation (r : RegressionResultM) :
    r.rmse = Real.sqrt r.mse ∧ r.rmsle = Real.sqrt r.msle ∧
    r.rmse ^ 2 = r.mse ∧ r.rmsle ^ 2 = r.msle ∧
    0 ≤ r.rmse ∧ 0 ≤ r.rmsle := by
  have hmse : 0 ≤ r.mse := by
    apply div_nonneg
    · apply List.sum_nonneg
      intro x hx
      obtain ⟨p, _, rfl⟩ := List.mem_map.mp hx
      positivity
    · positivity
  have hmsle : 0 ≤ r.msle := by
    apply div_nonneg
    · apply List.sum_nonneg
      intro x hx
      obtain ⟨p, _, rfl⟩ := List.mem_map.mp hx
      positivity
    · positivity
  exact ⟨rfl, rfl, Real.sq_sqrt hmse, Real.sq_sqrt hmsle,
         Real.sqrt_nonneg _, Real.sqrt_nonneg _⟩

/-- C10: `evaluate` is a total function on every result variant and metric
name (exceptions are consumed into `Except` values, never propagated): the
returned record always carries the metric name and a value; the value is NaN
with an attached diagnostic message whenever the metric is unsupported or
the underlying computation fails; `NoResult.evaluate` (inherited unchanged
by `ErrorResult`) always returns NaN with a message on unrecognized names. -/
theorem evaluate_total_nan_message (f : MethodTable) (pbType m m2 : String)
    (hib : Bool) (e : String) :
    (resultEvaluate f pbType m).metric = m ∧
    (f m = none → resultEvaluate f pbType m =
      ⟨m, .nan, none,
       some ("Unsupported metric `" ++ m ++ "` for " ++ pbType ++ " problems")⟩) ∧
    (f m = some (hib, .error e) → resultEvaluate f pbType m =
      ⟨m, .nan, some hib, some ("Scoring " ++ m ++ ": " ++ e)⟩) ∧
    (noResultEvaluate m2).metric = m2 ∧
    (noResultEvaluate m2).value = .nan ∧
    (supportedMetrics.lookup m2 = none →
      (noResultEvaluate m2).message = some ("Unsupported metric `" ++ m2 ++ "`")) ∧
    errorResultEvaluate m2 = noResultEvaluate m2 := by
  refine ⟨?_, ?_, ?_, ?_, ?_, ?_, rfl⟩
  · cases hfm : f m with
    | none => simp [resultEvaluate, hfm]
    | some p =>
      rcases p with ⟨hb, v | err⟩ <;> simp [resultEvaluate, hfm]
  · intro h
    simp [resultEvaluate, h]
  · intro h
    simp [resultEvaluate, h]
  · cases hl : supportedMetrics.lookup m2 <;> simp [noResultEvaluate, hl]
  · cases hl : supportedMetrics.lookup m2 <;> simp [noResultEvaluate, hl]
  · intro h
    simp [noResultEvaluate, h]

/-- Method table of a result with no metric methods at all, used to witness
the unsupported-metric branch. -/
def exMethodsC10 : MethodTable := fun _ => none

/-- C10 witness: the theorem applied at a concrete method table and metric
names. -/
theorem evaluate_total_nan_message_witness :
    resultEvaluate exMethodsC10 "binary" "foo" =
      ⟨"foo", FVal.nan, none, some "Unsupported metric `foo` for binary problems"⟩ ∧
    (noResultEvaluate "not_a_metric").value = FVal.nan ∧
    (noResultEvaluate "not_a_metric").message =
      some "Unsupported metric `not_a_metric`" := by
  have h := evaluate_total_nan_message exMethodsC10 "binary" "foo" "not_a_metric" true "boom"
  exact ⟨h.2.1 rfl, h.2.2.2.2.1, h.2.2.2.2.2.1 (by decide)⟩

/-- Row count is preserved by the canonical reindexing of
`as_data_frame` (only columns change). -/
theorem asDataFrame_rows_length (d : DFm) :
    (asDataFrame d).rows.length = d.rows.length := by
  unfold asDataFrame
  split <;> simp

/-- Example board for the C8 counterexample: an empty scoreboard. -/
def exB8 : ScoreboardM := ⟨⟨["acc"], []⟩⟩

/-- Example board for the C8 counterexample: one scored row. -/
def exO8 : ScoreboardM := ⟨⟨["acc"], [[some 1]]⟩⟩

/-- C8 counterexample: after `scoreboard.append(other)` the receiver's
in-memory table does NOT reflect the appended rows — `append` builds and
returns a new `Scoreboard`, leaving the receiver unchanged (here still
empty), while the returned board carries the appended row. -/
theorem scoreboard_append_no_mutation_counterexample :
    (exB8.appendBoard exO8 true).2.scores.rows = [] ∧
    (exB8.appendBoard exO8 true).1.scores.rows.length = 1 := by
  decide

/-- C8 (amended): `append` leaves the receiver's in-memory state unchanged
and returns a fresh `Scoreboard` whose table holds the rows of both boards
(here with dedup disabled, so the counts add);
`save` and `as_data_frame` also leave the in-memory scores table unchanged;
only `load` (and construction) replaces it, with the loaded file. -/
theorem scoreboard_state_mutations (b other : ScoreboardM) (nd : Bool)
    (file : Option DFm) (app : Bool) :
    (b.appendBoard other nd).2 = b ∧
    (b.appendBoard other false).1.scores.rows.length
      = b.scores.rows.length + other.scores.rows.length ∧
    (b.saveOp file app).2 = b ∧
    b.asDataFrameOp.2 = b ∧
    (b.loadOp file).2.scores = loadDf file := by
  refine ⟨rfl, ?_, rfl, rfl, rfl⟩
  simp [ScoreboardM.appendBoard, dfAppend, asDataFrame_rows_length]

/-- C4: on a classification result with three or more classes, `auc` raises
the type-mismatch `ResultError` (and `pr_auc` raises on any non-binary
result); invoked through `Result.evaluate` the failure is captured: the
value is NaN and the message embeds the metric name and the failure text;
and `evaluate` at any metric name depends only on that name's own method, so
the failure leaves every other metric's evaluation unaffected. -/
theorem classification_auc_type_mismatch_capture (c : ClassificationResultM)
    (f g : MethodTable) (pt m : String)
    (h3 : 3 ≤ c.classes.length) (hfg : f m = g m) :
    c.auc = .error aucMessage ∧
    c.pr_auc = .error prAucMessage ∧
    resultEvaluate (classificationMethods c) c.dtype.name "auc" =
      ⟨"auc", .nan, some true, some ("Scoring auc: " ++ aucMessage)⟩ ∧
    resultEvaluate f pt m = resultEvaluate g pt m := by
  have hne : ¬(c.classes.length = 2) := by omega
  have hdt : c.dtype = .multiclass := by
    simp [ClassificationResultM.dtype, hne]
  have hauc : c.auc = .error aucMessage := by
    simp [ClassificationResultM.auc, hdt]
  have hpr : c.pr_auc = .error prAucMessage := by
    simp [ClassificationResultM.pr_auc, hdt]
  refine ⟨hauc, hpr, ?_, ?_⟩
  · have hm : classificationMethods c "auc" = some (true, Except.error aucMessage) := by
      rw [show classificationMethods c "auc" = some (true, c.auc) from rfl, hauc]
    simp [resultEvaluate, hm]
  · unfold resultEvaluate
    rw [hfg]

/-- Example classification result with three classes for the C4 witness;
the external library outcomes are immaterial to the claim. -/
def exC4 : ClassificationResultM :=
  { classes := ["a", "b", "c"], truth := [], predictions := [],
    extAcc := .ok (.fin 0), extBalacc := .ok (.fin 0), extLogloss := .ok (.fin 0),
    extRocAucBinary := .ok (.fin 0), extRocAucOvo := .ok (.fin 0),
    extRocAucOvr := .ok (.fin 0), extAvgPrecision := .ok (.fin 0),
    extF05 := .ok (.fin 0), extF1 := .ok (.fin 0), extF2 := .ok (.fin 0) }

/-- C4 witness: the theorem applied at a concrete three-class result. -/
theorem classification_auc_type_mismatch_capture_witness :
    exC4.auc = .error aucMessage ∧
    exC4.pr_auc = .error prAucMessage ∧
    resultEvaluate (classificationMethods exC4) exC4.dtype.name "auc" =
      ⟨"auc", .nan, some true, some ("Scoring auc: " ++ aucMessage)⟩ ∧
    resultEvaluate (classificationMethods exC4) "multiclass" "acc" =
      resultEvaluate (classificationMethods exC4) "multiclass" "acc" :=
  classification_auc_type_mismatch_capture exC4
    (classificationMethods exC4) (classificationMethods exC4)
    "multiclass" "acc" (by decide) rfl

/-- Absent columns have no index. -/
theorem colIndex_eq_none_of_not_mem {l : List String} {c : String} (h : c ∉ l) :
    colIndex l c = none := by
  induction l with
  | nil => rfl
  | cons a t ih =>
    simp only [List.mem_cons, not_or] at h
    simp [colIndex, Ne.symm h.1, ih h.2]

/-- Indexing a column in an appended header, when it does not occur in the
left part, shifts its index in the right part by the left length. -/
theorem colIndex_append_of_not_mem {xs : List String} {c : String}
    (ys : List String) (h : c ∉ xs) :
    colIndex (xs ++ ys) c = (colIndex ys c).map (· + xs.length) := by
  induction xs with
  | nil => simp
  | cons a t ih =>
    simp only [List.mem_cons, not_or] at h
    rw [List.cons_append]
    simp only [colIndex, Ne.symm h.1, if_false, ih h.2]
    cases colIndex ys c <;> simp
    omega

/-- A replicated-NaN padding block yields NaN at every index. -/
theorem getD_replicate_none (k j : ℕ) :
    (List.replicate k (none : Cell)).getD j none = none := by
  rcases lt_or_ge j k with hj | hj
  · rw [List.getD_eq_getElem _ _ (by simpa using hj)]
    simp
  · exact List.getD_eq_default _ _ (by simpa using hj)

/-- C1: `Scoreboard.save_df(data_frame, path, append)`.  Schema drift is
the header of the existing file differing from the new table's column list
(and no drift can be reported when the file is absent); the old file is
backed up exactly when drift is detected or the file exists and `append` is
false; and on drift with `append=True` the written table is the old one with
the new appended under the combined schema: every old row is preserved (at
its index, padded with NaN cells), the row count is the sum of both row
counts, and old rows read as NaN at every newly introduced column. -/
theorem saveDf_drift_backup_append (old new : DFm) (app : Bool) (i : ℕ)
    (c : String) :
    (saveDf (some old) new app).drift = decide ¬(old.cols = new.cols) ∧
    (saveDf none new app).drift = false ∧
    (saveDf (some old) new app).backedUp
      = ((saveDf (some old) new app).drift || !app) ∧
    (saveDf none new app).backedUp = false ∧
    (¬(old.cols = new.cols) →
      (saveDf (some old) new true).written = dfAppend old new) ∧
    (dfAppend old new).rows.length = old.rows.length + new.rows.length ∧
    (dfAppend old new).cols = combinedCols old.cols new.cols ∧
    (i < old.rows.length →
      (dfAppend old new).rows.getD i []
        = old.rows.getD i []
          ++ List.replicate (new.cols.filter (fun x => !old.cols.contains x)).length none) ∧
    ((∀ r ∈ old.rows, r.length = old.cols.length) → c ∉ old.cols →
      i < old.rows.length →
      lookupCell (dfAppend old new).cols ((dfAppend old new).rows.getD i []) c
        = none) := by
  have hpad : i < old.rows.length →
      (dfAppend old new).rows.getD i []
        = old.rows.getD i []
          ++ List.replicate (new.cols.filter (fun x => !old.cols.contains x)).length none := by
    intro hi
    unfold dfAppend
    rw [List.getD_append _ _ _ _ (by simpa using hi)]
    rw [List.getD_eq_getElem _ _ (by simpa using hi)]
    rw [List.getElem_map]
    rw [List.getD_eq_getElem _ _ hi]
  refine ⟨rfl, rfl, ?_, ?_, ?_, ?_, rfl, hpad, ?_⟩
  · cases app <;> simp [saveDf]
  · cases app <;> simp [saveDf]
  · intro h
    simp [saveDf, h]
  · simp [dfAppend]
  · intro hw hc hi
    rw [hpad hi]
    have hlen : (old.rows.getD i []).length = old.cols.length := by
      apply hw
      rw [List.getD_eq_getElem _ _ hi]
      exact List.getElem_mem _
    unfold lookupCell
    have hci : colIndex (dfAppend old new).cols c
        = (colIndex (new.cols.filter (fun x => !old.cols.contains x)) c).map
            (· + old.cols.length) := by
      exact colIndex_append_of_not_mem _ hc
    rw [show (dfAppend old new).cols
          = old.cols ++ new.cols.filter (fun x => !old.cols.contains x) from rfl] at hci ⊢
    rw [hci]
    cases hj : colIndex (new.cols.filter (fun x => !old.cols.contains x)) c with
    | none => rfl
    | some j =>
      show (old.rows.getD i []
          ++ List.replicate (new.cols.filter (fun x => !old.cols.contains x)).length
               (none : Cell)).getD (j + old.cols.length) none = none
      rw [List.getD_append_right _ _ _ _ (by omega)]
      rw [show j + old.cols.length - (old.rows.getD i []).length = j by omega]
      exact getD_replicate_none _ _

/-- Concrete existing file for the C1 witness. -/
def exOldC1 : DFm := ⟨["a"], [[some 1]]⟩

/-- Concrete new table (one added column) for the C1 witness. -/
def exNewC1 : DFm := ⟨["a", "b"], [[some 2, some 3]]⟩

/-- C1 witness: the theorem applied at a concrete drifting append. -/
theorem saveDf_drift_backup_append_witness :
    (saveDf (some exOldC1) exNewC1 true).drift = true ∧
    (saveDf (some exOldC1) exNewC1 true).backedUp = true ∧
    (saveDf (some exOldC1) exNewC1 true).written = dfAppend exOldC1 exNewC1 ∧
    (dfAppend exOldC1 exNewC1).rows.length = 2 ∧
    (dfAppend exOldC1 exNewC1).rows.getD 0 [] = [some 1, none] ∧
    lookupCell (dfAppend exOldC1 exNewC1).cols
      ((dfAppend exOldC1 exNewC1).rows.getD 0 []) "b" = none := by
  obtain ⟨h1, -, h3, -, h5, h6, -, h8, h9⟩ :=
    saveDf_drift_backup_append exOldC1 exNewC1 true 0 "b"
  refine ⟨?_, ?_, h5 (by decide), by simpa using h6, ?_, ?_⟩
  · rw [h1]; decide
  · rw [h3, h1]; decide
  · rw [h8 (by decide)]; decide
  · exact h9 (by decide) (by decide) (by decide)

/-- The seen-accumulator of `dropDupAux` only matters up to membership. -/
theorem dropDupAux_congr {α : Type} [DecidableEq α] (seen seen' l : List α)
    (h : ∀ x, x ∈ seen ↔ x ∈ seen') :
    dropDupAux seen l = dropDupAux seen' l := by
  induction l generalizing seen seen' with
  | nil => rfl
  | cons a t ih =>
    by_cases ha : a ∈ seen
    · rw [dropDupAux, if_pos ha, dropDupAux, if_pos ((h a).mp ha)]
      exact ih seen seen' h
    · rw [dropDupAux, if_neg ha, dropDupAux, if_neg (fun hx => ha ((h a).mpr hx))]
      rw [ih (a :: seen) (a :: seen') (fun x => by simp [h x])]

/-- Splitting `dropDupAux` across an append: the elements of the first part
join the seen set for the second part. -/
theorem dropDupAux_append {α : Type} [DecidableEq α] (seen l m : List α) :
    dropDupAux seen (l ++ m) = dropDupAux seen l ++ dropDupAux (l ++ seen) m := by
  induction l generalizing seen with
  | nil =>
    have h0 : dropDupAux seen ([] : List α) = [] := rfl
    simp [h0]
  | cons a t ih =>
    by_cases ha : a ∈ seen
    · rw [List.cons_append, dropDupAux, if_pos ha, ih, dropDupAux, if_pos ha]
      rw [dropDupAux_congr (t ++ seen) (a :: t ++ seen) m (fun x => by
        constructor
        · intro hx; simp at hx ⊢; tauto
        · intro hx; simp at hx ⊢; rcases hx with h1 | h1 | h1 <;> simp_all)]
    · rw [List.cons_append, dropDupAux, if_neg ha, ih, dropDupAux, if_neg ha]
      rw [List.cons_append]
      rw [dropDupAux_congr (t ++ a :: seen) (a :: (t ++ seen)) m (fun x => by
        simp; tauto)]
      rfl

/-- Rows all already seen contribute nothing. -/
theorem dropDupAux_eq_nil {α : Type} [DecidableEq α] (seen m : List α)
    (h : ∀ x ∈ m, x ∈ seen) :
    dropDupAux seen m = [] := by
  induction m with
  | nil => rfl
  | cons a t ih =>
    rw [dropDupAux, if_pos (h a (by simp))]
    exact ih (fun x hx => h x (by simp [hx]))

/-- Dropping duplicates of a table appended to itself keeps exactly one copy
of each row: the result equals dropping duplicates of the single table. -/
theorem dropDup_append_self {α : Type} [DecidableEq α] (l : List α) :
    dropDup (l ++ l) = dropDup l := by
  unfold dropDup
  rw [dropDupAux_append]
  rw [dropDupAux_eq_nil (l ++ []) l (fun x hx => by simp [hx])]
  simp

/-- Helper for `dropDup_of_nodup`: on a duplicate-free list disjoint from
the seen set, `dropDupAux` keeps everything. -/
theorem dropDupAux_of_nodup {α : Type} [DecidableEq α] (l : List α)
    (h : l.Nodup) :
    ∀ seen, (∀ x ∈ l, x ∉ seen) → dropDupAux seen l = l := by
  induction l with
  | nil => intro seen _; rfl
  | cons a t ih =>
    intro seen hdisj
    rw [dropDupAux, if_neg (hdisj a (by simp))]
    rw [ih (List.Nodup.of_cons h) (a :: seen) (fun x hx => by
      simp only [List.mem_cons, not_or]
      exact ⟨fun he => (List.nodup_cons.mp h).1 (he ▸ hx), hdisj x (by simp [hx])⟩)]

/-- On a duplicate-free list `dropDup` is the identity. -/
theorem dropDup_of_nodup {α : Type} [DecidableEq α] (l : List α) (h : l.Nodup) :
    dropDup l = l :=
  dropDupAux_of_nodup l h [] (by simp)

/-- First occurrences in a duplicate-free header: the column name at index
`i` has column index `i`. -/
theorem colIndex_get?_self (cols : List String) (hnd : cols.Nodup) :
    ∀ (i : ℕ) (c : String), cols.get? i = some c → colIndex cols c = some i := by
  induction cols with
  | nil => intro i c h; simp at h
  | cons a t ih =>
    intro i c h
    rcases i with _ | i
    · simp only [List.get?] at h
      injection h with h
      simp [colIndex, h]
    · simp only [List.get?] at h
      have hmem : c ∈ t := List.get?_mem h
      have hne : ¬(a = c) := fun he => (List.nodup_cons.mp hnd).1 (he ▸ hmem)
      rw [colIndex, if_neg hne, ih (List.Nodup.of_cons hnd) i c h]
      rfl

/-- Re-aligning a well-formed row to its own duplicate-free header is the
identity. -/
theorem reindexRow_self (cols : List String) (r : List Cell)
    (hnd : cols.Nodup) (hlen : r.length = cols.length) :
    reindexRow cols cols r = r := by
  apply List.ext_getElem
  · simp [reindexRow, hlen]
  · intro n h1 h2
    have h1' : n < cols.length := by simpa [reindexRow] using h1
    show (cols.map (lookupCell cols r))[n] = r[n]
    rw [List.getElem_map]
    rw [lookupCell, colIndex_get?_self cols hnd n cols[n]
      (by rw [List.get?_eq_getElem?]; exact List.getElem?_eq_getElem h1')]
    exact List.getD_eq_getElem r none h2

/-- C2 (amended): appending a well-formed scoreboard (duplicate-free column
names, rows as wide as the header) to itself with deduplication yields the
original row count provided its canonical table has no duplicate rows (in
general the result keeps one copy of each distinct row, so it can be
smaller); with deduplication disabled the row count doubles. -/
theorem scoreboard_self_append_rowcount (b : ScoreboardM)
    (hnd : (asDataFrame b.scores).rows.Nodup)
    (hcols : (asDataFrame b.scores).cols.Nodup)
    (hw : ∀ r ∈ (asDataFrame b.scores).rows,
      r.length = (asDataFrame b.scores).cols.length) :
    (b.appendBoard b true).1.scores.rows.length = b.scores.rows.length ∧
    (b.appendBoard b false).1.scores.rows.length = 2 * b.scores.rows.length := by
  have hfilter : (asDataFrame b.scores).cols.filter
      (fun c => !(asDataFrame b.scores).cols.contains c) = [] :=
    List.filter_eq_nil_iff.mpr (fun a ha => by simp [ha])
  have hcomb : combinedCols (asDataFrame b.scores).cols (asDataFrame b.scores).cols
      = (asDataFrame b.scores).cols := by
    simp [combinedCols, hfilter]
  have hleft : (asDataFrame b.scores).rows.map
      (fun r => r ++ List.replicate ((asDataFrame b.scores).cols.filter
        (fun c => !(asDataFrame b.scores).cols.contains c)).length (none : Cell))
      = (asDataFrame b.scores).rows := by
    rw [hfilter]
    simp
  have hright : (asDataFrame b.scores).rows.map
      (reindexRow (asDataFrame b.scores).cols
        (combinedCols (asDataFrame b.scores).cols (asDataFrame b.scores).cols))
      = (asDataFrame b.scores).rows := by
    rw [hcomb]
    rw [List.map_congr_left (fun r hr => reindexRow_self _ r hcols (hw r hr))]
    exact List.map_id _
  constructor
  · show (dropDup (dfAppend (asDataFrame b.scores) (asDataFrame b.scores)).rows).length
      = b.scores.rows.length
    rw [show (dfAppend (asDataFrame b.scores) (asDataFrame b.scores)).rows
        = (asDataFrame b.scores).rows ++ (asDataFrame b.scores).rows by
      rw [dfAppend]
      rw [hleft, hright]]
    rw [dropDup_append_self, dropDup_of_nodup _ hnd, asDataFrame_rows_length]
  · show (dfAppend (asDataFrame b.scores) (asDataFrame b.scores)).rows.length
      = 2 * b.scores.rows.length
    rw [dfAppend]
    simp [asDataFrame_rows_length]
    omega

/-- Scoreboard with two identical rows for the C2 counterexample. -/
def exB2 : ScoreboardM := ⟨⟨["extra1"], [[some 1], [some 1]]⟩⟩

/-- C2 counterexample: a scoreboard whose table holds the same row twice.
Appending it to itself with deduplication enabled collapses the duplicates:
one row remains while the original board had two, so the claimed equality of
row counts fails. -/
theorem scoreboard_self_append_dedup_counterexample :
    (exB2.appendBoard exB2 true).1.scores.rows.length = 1 ∧
    exB2.scores.rows.length = 2 := by
  decide

/-- Scoreboard with two distinct rows for the C2 witness. -/
def exB2w : ScoreboardM := ⟨⟨["extra1"], [[some 1], [some 2]]⟩⟩

/-- C2 witness: the theorem applied at a concrete duplicate-free board. -/
theorem scoreboard_self_append_rowcount_witness :
    (exB2w.appendBoard exB2w true).1.scores.rows.length = 2 ∧
    (exB2w.appendBoard exB2w false).1.scores.rows.length = 4 :=
  scoreboard_self_append_rowcount exB2w (by decide) (by decide) (by decide)

/-- Sorting strings is invariant under permutation of the input. -/
theorem sortStr_perm_congr (l l2 : List String) (h : List.Perm l l2) :
    sortStr l = sortStr l2 := by
  apply List.eq_of_perm_of_sorted
    ((List.perm_insertionSort _ l).trans (h.trans (List.perm_insertionSort _ l2).symm))
    (List.sorted_insertionSort _ l) (List.sorted_insertionSort _ l2)

/-- Empty frame (a header-only ledger file) with columns out of canonical
order, for the C7 counterexample. -/
def exDF7 : DFm := ⟨["b", "a"], []⟩

/-- C7 counterexample: `as_data_frame` returns an empty frame unchanged (the
source short-circuits on `df.empty` to avoid dtype conversions), so a table
it produces from a header-only ledger keeps the file's column order, which
is not the canonical fixed/metric/dynamic ordering. -/
theorem as_data_frame_empty_counterexample :
    asDataFrame exDF7 = exDF7 ∧ ¬(exDF7.cols = orderedCols exDF7.cols) := by
  decide

/-- C7 (amended): for every nonempty scoreboard table, `as_data_frame`
orders the columns canonically: the fixed core columns first in their
canonical order, then the recognized metric columns sorted alphabetically,
then the remaining dynamic columns sorted alphabetically; and this ordering
is a function of the column set alone (permuting a duplicate-free column
list does not change it), hence stable across appends.  Empty tables are
returned unchanged. -/
theorem as_data_frame_column_order (df : DFm) (cols2 : List String)
    (hrows : ¬(df.rows = [])) (hcols : ¬(df.cols = []))
    (hnd : df.cols.Nodup) (hnd2 : cols2.Nodup)
    (hset : df.cols.toFinset = cols2.toFinset) :
    (asDataFrame df).cols = orderedCols df.cols ∧
    orderedCols df.cols
      = fixedCols
        ++ sortStr (df.cols.filter (fun c => isMetricCol c))
        ++ sortStr (df.cols.filter (fun c => !fixedCols.contains c && !isMetricCol c)) ∧
    (sortStr (df.cols.filter (fun c => isMetricCol c))).Sorted (fun a b => a ≤ b) ∧
    (sortStr (df.cols.filter
      (fun c => !fixedCols.contains c && !isMetricCol c))).Sorted (fun a b => a ≤ b) ∧
    orderedCols df.cols = orderedCols cols2 := by
  have hperm : List.Perm df.cols cols2 :=
    List.perm_of_nodup_nodup_toFinset_eq hnd hnd2 hset
  refine ⟨?_, rfl, List.sorted_insertionSort _ _, List.sorted_insertionSort _ _, ?_⟩
  · rw [asDataFrame, if_neg (by simp [hrows, hcols])]
  · unfold orderedCols
    rw [sortStr_perm_congr _ _ (hperm.filter _), sortStr_perm_congr _ _ (hperm.filter _)]

/-- Nonempty frame with one metric and one dynamic column for the C7
witness. -/
def exDF7w : DFm := ⟨["zcol", "acc"], [[some 1, some 2]]⟩

/-- C7 witness: the theorem applied at a concrete nonempty frame and a
permutation of its columns. -/
theorem as_data_frame_column_order_witness :
    (asDataFrame exDF7w).cols = orderedCols exDF7w.cols ∧
    orderedCols exDF7w.cols
      = fixedCols
        ++ sortStr (exDF7w.cols.filter (fun c => isMetricCol c))
        ++ sortStr (exDF7w.cols.filter (fun c => !fixedCols.contains c && !isMetricCol c)) ∧
    (sortStr (exDF7w.cols.filter (fun c => isMetricCol c))).Sorted (fun a b => a ≤ b) ∧
    (sortStr (exDF7w.cols.filter
      (fun c => !fixedCols.contains c && !isMetricCol c))).Sorted (fun a b => a ≤ b) ∧
    orderedCols exDF7w.cols = orderedCols ["acc", "zcol"] :=
  as_data_frame_column_order exDF7w ["acc", "zcol"]
    (by decide) (by decide) (by decide) (by decide) (by decide)

/-- Time-series frame whose item-id groups have lengths 3, 3 and 2, for the
C3 counterexample and message check. -/
def exTS332 : TSFrame :=
  ⟨[("truth", List.replicate 8 (FVal.fin 1)),
    ("predictions", List.replicate 8 (FVal.fin 1)),
    ("repeated_item_id",
      [.fin 0, .fin 0, .fin 0, .fin 1, .fin 1, .fin 1, .fin 2, .fin 2]),
    ("repeated_abs_seasonal_error", List.replicate 8 (FVal.fin 1))]⟩

/-- C3 counterexample: on a frame whose groups have lengths `[3,3,2]`,
construction does fail, but the error carries the per-item lengths
`[3, 3, 2]` (`unique_item_ids_counts`, one entry per distinct item id,
with repeated values), not the distinct set `{3, 2}` the claim states. -/
theorem timeseries_length_error_counterexample :
    mkTimeSeriesResult exTS332 = .error (.differentLengths [3, 3, 2]) ∧
    ¬(([3, 3, 2] : List ℕ) = [3, 2]) ∧ ¬(([3, 3, 2] : List ℕ).Nodup) := by
  decide

/-- C3 (amended): `TimeSeriesResult` construction fails with an error —
before any metric can be computed, since metrics are only defined on the
validated payload — whenever a point prediction or quantile forecast is
NaN/Inf, or the item-id groups do not all share one length, or a column
outside the mandatory and quantile-named sets is present; and when the
mandatory columns are present, no column is unrecognized, all forecasts are
finite and the group lengths differ, the error reports the per-item group
lengths (which may repeat values), not their distinct set. -/
theorem timeseries_validation_rejects (f : TSFrame) :
    ((tsNonFinite f = true ∨ 2 ≤ (dropDup (tsUniqueCounts f)).length ∨
        ¬(tsUnrecognized f = [])) →
      ∃ e, mkTimeSeriesResult f = .error e) ∧
    (tsMissing f = [] → tsUnrecognized f = [] → tsNonFinite f = false →
      ¬((dropDup (tsUniqueCounts f)).length = 1) →
      mkTimeSeriesResult f = .error (.differentLengths (tsUniqueCounts f))) := by
  constructor
  · intro hbad
    unfold mkTimeSeriesResult
    by_cases h1 : tsMissing f = []
    · rw [if_neg (not_not_intro h1)]
      by_cases h2 : tsUnrecognized f = []
      · rw [if_neg (not_not_intro h2)]
        by_cases h3 : tsNonFinite f = true
        · rw [if_pos h3]
          exact ⟨_, rfl⟩
        · rw [if_neg h3]
          by_cases h4 : (dropDup (tsUniqueCounts f)).length = 1
          · rw [if_neg (not_not_intro h4)]
            exfalso
            rcases hbad with hb | hb | hb
            · exact h3 hb
            · omega
            · exact hb h2
          · rw [if_pos h4]
            exact ⟨_, rfl⟩
      · rw [if_pos h2]
        exact ⟨_, rfl⟩
    · rw [if_pos h1]
      exact ⟨_, rfl⟩
  · intro hm hu hf hl
    unfold mkTimeSeriesResult
    rw [if_neg (not_not_intro hm), if_neg (not_not_intro hu)]
    rw [if_neg (by rw [hf]; exact Bool.false_ne_true), if_pos hl]

/-- Time-series frame with group lengths 2 and 1 for the C3 witness. -/
def exTS21 : TSFrame :=
  ⟨[("truth", List.replicate 3 (FVal.fin 1)),
    ("predictions", List.replicate 3 (FVal.fin 1)),
    ("repeated_item_id", [.fin 0, .fin 0, .fin 1]),
    ("repeated_abs_seasonal_error", List.replicate 3 (FVal.fin 1))]⟩

/-- C3 witness: the theorem applied at a concrete irregular frame. -/
theorem timeseries_validation_rejects_witness :
    mkTimeSeriesResult exTS21 = .error (.differentLengths [2, 1]) := by
  have h := (timeseries_validation_rejects exTS21).2
    (by decide) (by decide) (by decide) (by decide)
  rw [show tsUniqueCounts exTS21 = [2, 1] from by decide] at h
  exact h

/-- Summing finite floats is rational addition. -/
theorem foldl_fadd_fin (l : List ℚ) (q : ℚ) :
    List.foldl FVal.add (.fin q) (l.map .fin) = .fin (q + l.sum) := by
  induction l generalizing q with
  | nil => simp
  | cons a t ih =>
    simp only [List.map_cons, List.foldl_cons, List.sum_cons]
    rw [show FVal.add (.fin q) (.fin a) = .fin (q + a) from rfl, ih]
    ring_nf

/-- The float sum of finite values is the rational sum. -/
theorem fvalSum_map_fin (l : List ℚ) : fvalSum (l.map .fin) = .fin l.sum := by
  unfold fvalSum
  rw [foldl_fadd_fin]
  ring_nf

/-- Python `max` over finite floats is the rational maximum fold. -/
theorem foldl_pymax_fin (l : List ℚ) (q : ℚ) :
    List.foldl (fun acc x => if FVal.gt x acc then x else acc) (.fin q) (l.map .fin)
      = .fin (List.foldl max q l) := by
  induction l generalizing q with
  | nil => rfl
  | cons a t ih =>
    simp only [List.map_cons, List.foldl_cons]
    rw [show (if FVal.gt (.fin a) (.fin q) then FVal.fin a else .fin q)
        = .fin (max q a) by
      rw [show FVal.gt (.fin a) (.fin q) = decide (q < a) from rfl]
      by_cases h : q < a
      · simp [h, max_eq_right (le_of_lt h)]
      · simp [h, max_eq_left (not_lt.mp h)]]
    exact ih (max q a)

/-- The initial value bounds a maximum fold from below. -/
theorem le_foldl_max (q : ℚ) (l : List ℚ) : q ≤ List.foldl max q l := by
  induction l generalizing q with
  | nil => exact le_refl q
  | cons a t ih => exact le_trans (le_max_left q a) (ih (max q a))

/-- Every member bounds a maximum fold from below. -/
theorem mem_le_foldl_max (l : List ℚ) (q x : ℚ) :
    x ∈ l → x ≤ List.foldl max q l := by
  induction l generalizing q with
  | nil => intro h; simp at h
  | cons a t ih =>
    intro h
    rcases List.mem_cons.mp h with rfl | hx
    · exact le_trans (le_max_right q x) (le_foldl_max _ t)
    · exact ih (max q a) hx

/-- A common upper bound of the initial value and all members bounds the
maximum fold. -/
theorem foldl_max_le (l : List ℚ) (q b : ℚ) (hq : q ≤ b) (h : ∀ x ∈ l, x ≤ b) :
    List.foldl max q l ≤ b := by
  induction l generalizing q with
  | nil => exact hq
  | cons a t ih =>
    exact ih (max q a) (max_le hq (h a (by simp))) (fun x hx => h x (by simp [hx]))

/-- Mean and Python max of a nonempty list of finite values in `[0, 1]` are
finite, lie in `[0, 1]`, and the mean is at most the max. -/
theorem mean_max_fin_bounds (a : ℚ) (l : List ℚ)
    (hmem : ∀ x ∈ a :: l, 0 ≤ x ∧ x ≤ 1) :
    ∃ mq Mq : ℚ, fvalMean ((a :: l).map .fin) = .fin mq ∧
      pyMax ((a :: l).map .fin) = .fin Mq ∧
      mq ≤ Mq ∧ 0 ≤ mq ∧ Mq ≤ 1 ∧ 0 ≤ Mq ∧ mq ≤ 1 := by
  refine ⟨(a :: l).sum / (((a :: l).length : ℕ) : ℚ), List.foldl max a l, ?_, ?_, ?_, ?_, ?_, ?_, ?_⟩
  · unfold fvalMean
    rw [fvalSum_map_fin, List.length_map]
    rfl
  · show List.foldl (fun acc x => if FVal.gt x acc then x else acc) (.fin a) (l.map .fin)
      = .fin (List.foldl max a l)
    exact foldl_pymax_fin l a
  · have hub : ∀ x ∈ a :: l, x ≤ List.foldl max a l := by
      intro x hx
      rcases List.mem_cons.mp hx with rfl | hx
      · exact le_foldl_max x l
      · exact mem_le_foldl_max l a x hx
    have hsum : (a :: l).sum ≤ ((a :: l).length) • List.foldl max a l :=
      List.sum_le_card_nsmul _ _ hub
    rw [div_le_iff₀ (by exact_mod_cast Nat.succ_pos l.length)]
    calc (a :: l).sum ≤ ((a :: l).length) • List.foldl max a l := hsum
    _ = List.foldl max a l * (((a :: l).length : ℕ) : ℚ) := by
      rw [nsmul_eq_mul]
      ring
  · apply div_nonneg
    · exact List.sum_nonneg (fun x hx => (hmem x hx).1)
    · positivity
  · exact foldl_max_le l a 1 (hmem a (by simp)).2 (fun x hx => (hmem x (by simp [hx])).2)
  · exact le_trans (hmem a (by simp)).1 (le_foldl_max a l)
  · have h1 : (a :: l).sum / (((a :: l).length : ℕ) : ℚ) ≤ List.foldl max a l := by
      have hub : ∀ x ∈ a :: l, x ≤ List.foldl max a l := by
        intro x hx
        rcases List.mem_cons.mp hx with rfl | hx
        · exact le_foldl_max x l
        · exact mem_le_foldl_max l a x hx
      rw [div_le_iff₀ (by exact_mod_cast Nat.succ_pos l.length)]
      calc (a :: l).sum ≤ ((a :: l).length) • List.foldl max a l :=
        List.sum_le_card_nsmul _ _ hub
      _ = List.foldl max a l * (((a :: l).length : ℕ) : ℚ) := by
        rw [nsmul_eq_mul]
        ring
    exact le_trans h1 (foldl_max_le l a 1 (hmem a (by simp)).2
      (fun x hx => (hmem x (by simp [hx])).2))

/-- The rational value of a per-class error with positive support:
(support − correctly-classified) / support, with support the confusion
matrix row sum and correctly-classified its diagonal entry. -/
def perClassErrorQ (c : ClassificationResultM) (i : ℕ) : ℚ :=
  (((c.cm.getD i []).sum : ℚ) - ((c.cm.getD i []).getD i 0 : ℚ))
    / ((c.cm.getD i []).sum : ℚ)

/-- C5 (amended): on every classification result whose classes all have
positive support (each confusion-matrix row sums to a positive count), each
per-class error equals (support − correctly-classified) / support, and
`mean_pce` and `max_pce` are finite, lie in `[0, 1]`, and satisfy
`mean_pce ≤ max_pce`.  (With a zero-support class the per-class error is
NaN — numpy's `0/0` — and the bounds fail, see the counterexample.) -/
theorem pce_bounds (c : ClassificationResultM)
    (hne : ¬(c.classes = []))
    (hsup : ∀ i, i < c.classes.length → 0 < (c.cm.getD i []).sum) :
    (∀ i, i < c.classes.length →
      c.perClassErrors.getD i .nan = .fin (perClassErrorQ c i)) ∧
    ∃ mq Mq : ℚ, c.mean_pce = .fin mq ∧ c.max_pce = .fin Mq ∧
      mq ≤ Mq ∧ 0 ≤ mq ∧ Mq ≤ 1 ∧ 0 ≤ Mq ∧ mq ≤ 1 := by
  have hE : c.perClassErrors
      = ((List.range c.classes.length).map (perClassErrorQ c)).map FVal.fin := by
    show (List.range c.classes.length).map _ = _
    rw [List.map_map]
    apply List.map_congr_left
    intro i hi
    have hs := Nat.pos_iff_ne_zero.mp (hsup i (List.mem_range.mp hi))
    show (if (c.cm.getD i []).sum = 0 then FVal.nan
          else .fin ((((c.cm.getD i []).sum : ℚ) - ((c.cm.getD i []).getD i 0 : ℚ))
            / ((c.cm.getD i []).sum : ℚ))) = _
    rw [if_neg hs]
    rfl
  constructor
  · intro i hi
    rw [hE]
    rw [List.getD_eq_getElem _ _ (by simpa using hi)]
    rw [List.getElem_map, List.getElem_map, List.getElem_range]
  · have hbound : ∀ x ∈ (List.range c.classes.length).map (perClassErrorQ c),
        0 ≤ x ∧ x ≤ 1 := by
      intro x hx
      obtain ⟨i, hi, rfl⟩ := List.mem_map.mp hx
      have hs := hsup i (List.mem_range.mp hi)
      have hd : (c.cm.getD i []).getD i 0 ≤ (c.cm.getD i []).sum := by
        rcases lt_or_ge i (c.cm.getD i []).length with hlt | hge
        · rw [List.getD_eq_getElem _ _ hlt]
          exact List.single_le_sum (fun y _ => Nat.zero_le y) _ (List.getElem_mem hlt)
        · rw [List.getD_eq_default _ _ hge]
          exact Nat.zero_le _
      constructor
      · apply div_nonneg
        · rw [sub_nonneg]
          exact_mod_cast hd
        · positivity
      · rw [perClassErrorQ, div_le_one (by exact_mod_cast hs)]
        apply sub_le_self
        positivity
    cases hEl : (List.range c.classes.length).map (perClassErrorQ c) with
    | nil =>
      exfalso
      have h0 : c.classes.length = 0 := by simpa using congrArg List.length hEl
      exact hne (List.length_eq_zero.mp h0)
    | cons a t =>
      obtain ⟨mq, Mq, h1, h2, h3, h4, h5, h6, h7⟩ :=
        mean_max_fin_bounds a t (hEl ▸ hbound)
      refine ⟨mq, Mq, ?_, ?_, h3, h4, h5, h6, h7⟩
      · show fvalMean c.perClassErrors = .fin mq
        rw [hE, hEl]
        exact h1
      · show pyMax c.perClassErrors = .fin Mq
        rw [hE, hEl]
        exact h2

/-- Classification result with a zero-support class for the C5
counterexample: two classes, but the truth column only ever contains the
first one. -/
def exC5 : ClassificationResultM :=
  { classes := ["a", "b"], truth := ["a"], predictions := ["a"],
    extAcc := .ok (.fin 0), extBalacc := .ok (.fin 0), extLogloss := .ok (.fin 0),
    extRocAucBinary := .ok (.fin 0), extRocAucOvo := .ok (.fin 0),
    extRocAucOvr := .ok (.fin 0), extAvgPrecision := .ok (.fin 0),
    extF05 := .ok (.fin 0), extF1 := .ok (.fin 0), extF2 := .ok (.fin 0) }

/-- C5 counterexample: with a class of zero support, its per-class error is
`0/0 = NaN`, so `mean_pce` is NaN — not a value in `[0, 1]` — while
`max_pce` is 0 here (Python `max` keeps the finite head over a trailing
NaN), and the claimed `mean_pce <= max_pce` is false under float
comparison. -/
theorem pce_zero_support_counterexample :
    ClassificationResultM.mean_pce exC5 = FVal.nan ∧
    ClassificationResultM.max_pce exC5 = FVal.fin 0 ∧
    FVal.le (ClassificationResultM.mean_pce exC5)
      (ClassificationResultM.max_pce exC5) = false := by
  have hpce : exC5.perClassErrors
      = [FVal.fin ((((1 : ℕ) : ℚ) - ((1 : ℕ) : ℚ)) / ((1 : ℕ) : ℚ)), FVal.nan] := rfl
  have harith : (((1 : ℕ) : ℚ) - ((1 : ℕ) : ℚ)) / ((1 : ℕ) : ℚ) = 0 := by norm_num
  rw [harith] at hpce
  refine ⟨?_, ?_, ?_⟩
  · show fvalMean exC5.perClassErrors = FVal.nan
    rw [hpce]
    rfl
  · show pyMax exC5.perClassErrors = FVal.fin 0
    rw [hpce]
    rfl
  · show FVal.le (fvalMean exC5.perClassErrors) (pyMax exC5.perClassErrors) = false
    rw [hpce]
    rfl

/-- Classification result where every class has support, matching the
spec's worked example (accuracy 1/2, per-class errors 0 and 1). -/
def exC5w : ClassificationResultM :=
  { classes := ["a", "b"], truth := ["a", "b"], predictions := ["a", "a"],
    extAcc := .ok (.fin 0), extBalacc := .ok (.fin 0), extLogloss := .ok (.fin 0),
    extRocAucBinary := .ok (.fin 0), extRocAucOvo := .ok (.fin 0),
    extRocAucOvr := .ok (.fin 0), extAvgPrecision := .ok (.fin 0),
    extF05 := .ok (.fin 0), extF1 := .ok (.fin 0), extF2 := .ok (.fin 0) }

/-- C5 witness: the theorem applied at a concrete fully-supported result. -/
theorem pce_bounds_witness :
    ∃ mq Mq : ℚ, ClassificationResultM.mean_pce exC5w = .fin mq ∧
      ClassificationResultM.max_pce exC5w = .fin Mq ∧
      mq ≤ Mq ∧ 0 ≤ mq ∧ Mq ≤ 1 ∧ 0 ≤ Mq ∧ mq ≤ 1 :=
  (pce_bounds exC5w (by decide) (by decide)).2

end Theorems
